import Mathlib

set_option maxRecDepth 8192

/-! Shallow embedding of src/index.ts, a stateless HTTP forwarding proxy for
    Cloudflare Workers.  Strings are modelled as Lean `String` (a list of
    characters in this toolchain), byte streams as `List Nat`, and header
    containers as association lists in iteration order with case-insensitive
    lookup, matching the behaviour of the platform `Headers` class as the
    source uses it.  Platform builtins that the source calls
    (`decodeURIComponent`, `encodeURIComponent`, `TextDecoder`, `new URL`,
    `JSON.stringify`, `fetch` init-override semantics) are modelled from
    their standard specifications; the GB2312 text decoder is kept abstract
    as a function parameter. -/

/-- Character constants used throughout (kept out of string literals). -/
def slashChar : Char := Char.ofNat 47

def percentChar : Char := Char.ofNat 37

def dqChar : Char := Char.ofNat 34

def sqChar : Char := Char.ofNat 39

def qmChar : Char := Char.ofNat 63

def hashChar : Char := Char.ofNat 35

/-- ASCII lowercasing of a character, as used for header-name comparison. -/
def lowerChar (c : Char) : Char :=
  if 65 ≤ c.toNat ∧ c.toNat ≤ 90 then Char.ofNat (c.toNat + 32) else c

/-- ASCII lowercasing of a string. -/
def lowerStr (s : String) : String := String.mk (s.data.map lowerChar)

/-- Character-level string prefix test (JS `String.prototype.startsWith`). -/
def strPrefix (p s : String) : Bool := p.data.isPrefixOf s.data

/-- Character-level substring from index `n` (JS `slice(n)`). -/
def strDrop (s : String) (n : Nat) : String := String.mk (s.data.drop n)

/-- Substring test on character lists (JS `String.prototype.includes`). -/
def hasSubL (p : List Char) : List Char → Bool
  | [] => p.isEmpty
  | c :: rest => p.isPrefixOf (c :: rest) || hasSubL p rest

/-- Substring test on strings. -/
def hasSubStr (p s : String) : Bool := hasSubL p.data s.data

/-- JS `String.prototype.replace` with a plain (non-regex) search string:
    replaces only the first occurrence.  (None of the replacement strings
    used by the source contain `$`, so no substitution-pattern handling is
    needed.) -/
def replaceFirstL (pat rep : List Char) : List Char → List Char
  | [] => []
  | c :: rest =>
    if pat.isPrefixOf (c :: rest) then rep ++ (c :: rest).drop pat.length
    else c :: replaceFirstL pat rep rest

/-- String wrapper for `replaceFirstL`. -/
def replaceFirstStr (pat rep s : String) : String :=
  String.mk (replaceFirstL pat.data rep.data s.data)

/-- Case-insensitive header lookup (`Headers.get`). -/
def headerGet (hs : List (String × String)) (name : String) : Option String :=
  (hs.find? (fun h => lowerStr h.1 = lowerStr name)).map (fun h => h.2)

/-- `Headers.set`: removes any entry with the same (case-insensitive) name
    and records the new value.  Entry order is irrelevant to every lookup
    the source performs, so the new entry is appended. -/
def headerSet (hs : List (String × String)) (name val : String) : List (String × String) :=
  (hs.filter (fun h => lowerStr h.1 ≠ lowerStr name)) ++ [(name, val)]

/-- src/index.ts `filterHeaders`: keeps only the entries whose name passes
    the predicate (header names iterate in lowercase form, as the platform
    `Headers` iterator yields them). -/
def filterHeaders (hs : List (String × String)) (filterFunc : String → Bool) :
    List (String × String) :=
  hs.filter (fun h => filterFunc h.1)

/-- Hex digit (uppercase), as produced by `encodeURIComponent`. -/
def hexDigitChar (n : Nat) : Char :=
  if n < 10 then Char.ofNat (48 + n) else Char.ofNat (55 + n)

/-- Hex digit value of a character, accepting both cases. -/
def hexVal (c : Char) : Option Nat :=
  if 48 ≤ c.toNat ∧ c.toNat ≤ 57 then some (c.toNat - 48)
  else if 65 ≤ c.toNat ∧ c.toNat ≤ 70 then some (c.toNat - 55)
  else if 97 ≤ c.toNat ∧ c.toNat ≤ 102 then some (c.toNat - 87)
  else none

/-- UTF-8 encoding of one scalar value (1 to 4 bytes). -/
def utf8EncodeChar (c : Char) : List Nat :=
  let n := c.toNat
  if n < 128 then [n]
  else if n < 2048 then [192 + n / 64, 128 + n % 64]
  else if n < 65536 then [224 + n / 4096, 128 + (n / 64) % 64, 128 + n % 64]
  else [240 + n / 262144, 128 + (n / 4096) % 64, 128 + (n / 64) % 64, 128 + n % 64]

/-- Characters left unescaped by `encodeURIComponent`:
    ASCII alphanumerics and `- _ . ! ~ * ' ( )`. -/
def isUnreservedURI (c : Char) : Bool :=
  (65 ≤ c.toNat && c.toNat ≤ 90) || (97 ≤ c.toNat && c.toNat ≤ 122) ||
  (48 ≤ c.toNat && c.toNat ≤ 57) ||
  (c.toNat == 45) || (c.toNat == 95) || (c.toNat == 46) || (c.toNat == 33) ||
  (c.toNat == 126) || (c.toNat == 42) || (c.toNat == 39) || (c.toNat == 40) ||
  (c.toNat == 41)

/-- `encodeURIComponent` on one character. -/
def encodeChar (c : Char) : List Char :=
  if isUnreservedURI c then [c]
  else (utf8EncodeChar c).foldr
    (fun b acc => percentChar :: hexDigitChar (b / 16) :: hexDigitChar (b % 16) :: acc) []

/-- Model of the ECMAScript builtin `encodeURIComponent`. -/
def encodeURIComponentL (s : List Char) : List Char :=
  s.foldr (fun c acc => encodeChar c ++ acc) []

/-- String wrapper for `encodeURIComponentL`. -/
def encodeURIComponentStr (s : String) : String := String.mk (encodeURIComponentL s.data)

/-- Continuation-byte value from two hex digit values, `none` unless the
    byte is of the form 10xxxxxx. -/
def contByte (a b : Nat) : Option Nat :=
  let v := 16 * a + b
  if 128 ≤ v ∧ v ≤ 191 then some (v - 128) else none

/-- Decode one `%XX...` escape group after a leading `%`: reads the two
    hex digits (and, for a multi-byte UTF-8 lead byte, the continuation
    escapes), returning the decoded character and the number of characters
    consumed; `none` models the `URIError` thrown on a malformed escape
    sequence. -/
def decodeEscape : List Char → Option (Char × Nat)
  | h1 :: h2 :: rest2 =>
    (match hexVal h1, hexVal h2 with
    | some a, some b =>
      let v := 16 * a + b
      if v < 128 then some (Char.ofNat v, 2)
      else if v < 194 then none
      else if v < 224 then
        match rest2 with
        | p2 :: h3 :: h4 :: _ =>
          if p2 = percentChar then
            match hexVal h3, hexVal h4 with
            | some a2, some b2 =>
              match contByte a2 b2 with
              | some x2 => some (Char.ofNat ((v - 192) * 64 + x2), 5)
              | none => none
            | _, _ => none
          else none
        | _ => none
      else if v < 240 then
        match rest2 with
        | p2 :: h3 :: h4 :: p3 :: h5 :: h6 :: _ =>
          if p2 = percentChar ∧ p3 = percentChar then
            match hexVal h3, hexVal h4, hexVal h5, hexVal h6 with
            | some a2, some b2, some a3, some b3 =>
              match contByte a2 b2, contByte a3 b3 with
              | some x2, some x3 =>
                let cp := (v - 224) * 4096 + x2 * 64 + x3
                if 2048 ≤ cp ∧ (cp < 55296 ∨ 57343 < cp) then some (Char.ofNat cp, 8)
                else none
              | _, _ => none
            | _, _, _, _ => none
          else none
        | _ => none
      else if v < 245 then
        match rest2 with
        | p2 :: h3 :: h4 :: p3 :: h5 :: h6 :: p4 :: h7 :: h8 :: _ =>
          if p2 = percentChar ∧ p3 = percentChar ∧ p4 = percentChar then
            match hexVal h3, hexVal h4, hexVal h5, hexVal h6, hexVal h7, hexVal h8 with
            | some a2, some b2, some a3, some b3, some a4, some b4 =>
              match contByte a2 b2, contByte a3 b3, contByte a4 b4 with
              | some x2, some x3, some x4 =>
                let cp := (v - 240) * 262144 + x2 * 4096 + x3 * 64 + x4
                if 65536 ≤ cp ∧ cp ≤ 1114111 then some (Char.ofNat cp, 11)
                else none
              | _, _, _ => none
            | _, _, _, _, _, _ => none
          else none
        | _ => none
      else none
    | _, _ => none)
  | _ => none

/-- Model of the ECMAScript builtin `decodeURIComponent`, run on fuel
    (every step consumes at least one character, so `s.length` steps always
    suffice): `%XX` escape groups are decoded as UTF-8 sequences, other
    characters pass through; `none` models the thrown `URIError`. -/
def pdFuel : Nat → List Char → Option (List Char)
  | 0, [] => some []
  | 0, _ :: _ => none
  | _ + 1, [] => some []
  | fuel + 1, c :: rest =>
    if c = percentChar then
      match decodeEscape rest with
      | some (ch, k) => (pdFuel fuel (rest.drop k)).map (fun l => ch :: l)
      | none => none
    else (pdFuel fuel rest).map (fun l => c :: l)

/-- `decodeURIComponent` with the fuel instantiated. -/
def percentDecodeL (s : List Char) : Option (List Char) := pdFuel s.length s

/-- String wrapper for `percentDecodeL`. -/
def percentDecodeStr (s : String) : Option String :=
  (percentDecodeL s.data).map String.mk

/-- The Unicode replacement character emitted by a non-fatal decoder. -/
def replChar : Char := Char.ofNat 65533

/-- One decoding step for a UTF-8 decoder: given the current byte and the
    remaining bytes, returns the character produced and how many further
    bytes were consumed. -/
def utf8Step (b : Nat) (rest : List Nat) : Char × Nat :=
  if b < 128 then (Char.ofNat b, 0)
  else if b < 194 then (replChar, 0)
  else if b < 224 then
    match rest with
    | b2 :: _ =>
      if 128 ≤ b2 ∧ b2 ≤ 191 then (Char.ofNat ((b - 192) * 64 + (b2 - 128)), 1)
      else (replChar, 0)
    | [] => (replChar, 0)
  else if b < 240 then
    match rest with
    | b2 :: b3 :: _ =>
      if 128 ≤ b2 ∧ b2 ≤ 191 ∧ 128 ≤ b3 ∧ b3 ≤ 191 then
        let cp := (b - 224) * 4096 + (b2 - 128) * 64 + (b3 - 128)
        if 2048 ≤ cp ∧ (cp < 55296 ∨ 57343 < cp) then (Char.ofNat cp, 2) else (replChar, 2)
      else (replChar, 0)
    | _ => (replChar, 0)
  else if b < 245 then
    match rest with
    | b2 :: b3 :: b4 :: _ =>
      if 128 ≤ b2 ∧ b2 ≤ 191 ∧ 128 ≤ b3 ∧ b3 ≤ 191 ∧ 128 ≤ b4 ∧ b4 ≤ 191 then
        let cp := (b - 240) * 262144 + (b2 - 128) * 4096 + (b3 - 128) * 64 + (b4 - 128)
        if 65536 ≤ cp ∧ cp ≤ 1114111 then (Char.ofNat cp, 3) else (replChar, 3)
      else (replChar, 0)
    | _ => (replChar, 0)
  else (replChar, 0)

/-- Model of `TextDecoder('utf-8', { fatal: false, ignoreBOM: true })`:
    exact on well-formed input; malformed sequences yield replacement
    characters (the resynchronisation policy on malformed input is
    simplified, which no theorem below depends on).  With `ignoreBOM: true`
    a leading BOM is not stripped, so no BOM handling is needed. -/
def utf8Fuel : Nat → List Nat → List Char
  | 0, _ => []
  | _ + 1, [] => []
  | fuel + 1, b :: rest =>
    let s := utf8Step b rest
    s.1 :: utf8Fuel fuel (rest.drop s.2)

/-- The decoder, run with enough fuel (each step consumes at least one
    byte, so `bs.length` steps always suffice). -/
def utf8DecodeL (bs : List Nat) : List Char := utf8Fuel bs.length bs

/-- Byte-stream decoding to a string. -/
def utf8Decode (bs : List Nat) : String := String.mk (utf8DecodeL bs)

/-- The parsed form of an absolute `http`/`https` URL.
    Modelled from the WHATWG URL Standard as used by the platform builtin
    `new URL(...)`, restricted to the lowercase `http://`/`https://` inputs
    the proxy handles: the host part runs to the first `/`, `?` or `#`, and
    a URL with no path serialises with pathname `/`.  `none` models the
    `TypeError` thrown on input that does not parse as an absolute URL
    (in particular the empty string and relative references). -/
structure URLRec where
  scheme : String
  host : String
  tail : String
  deriving DecidableEq, Repr

/-- The serialisation (`URL.prototype.toString` / `href`). -/
def URLRec.href (u : URLRec) : String := u.scheme ++ "://" ++ u.host ++ u.tail

/-- `URL.prototype.origin` for http/https URLs. -/
def URLRec.origin (u : URLRec) : String := u.scheme ++ "://" ++ u.host

/-- Parse an absolute http/https URL (see `URLRec`). -/
def parseURL (s : String) : Option URLRec :=
  let parseAfter : String → String → Option URLRec := fun scheme rest =>
    let hostChars := rest.data.takeWhile
      (fun c => (c != slashChar) && (c != qmChar) && (c != hashChar))
    if hostChars.isEmpty then none
    else
      let tailChars := rest.data.drop hostChars.length
      let tail :=
        match tailChars with
        | [] => String.mk [slashChar]
        | c :: _ =>
          if c = slashChar then String.mk tailChars
          else String.mk (slashChar :: tailChars)
      some ⟨scheme, String.mk hostChars, tail⟩
  if strPrefix ("https://") s then parseAfter ("https") (strDrop s 8)
  else if strPrefix ("http://") s then parseAfter ("http") (strDrop s 7)
  else none

/-- One global-regex rewrite rule: a literal pattern, the text emitted in
    place of a match, and an optional negative lookahead forbidding a `/`
    right after the match (regex `(?!/)`, which consumes nothing). -/
structure RwRule where
  pat : List Char
  emit : List Char
  noSlashAfter : Bool

/-- The `(?!/)` lookahead: succeeds unless the next character is `/`. -/
def noSlashGuard : List Char → Bool
  | [] => true
  | c :: _ => c != slashChar

/-- Whether a rule matches at the head of the text. -/
def matchRule (r : RwRule) (s : List Char) : Bool :=
  r.pat.isPrefixOf s && (!r.noSlashAfter || noSlashGuard (s.drop r.pat.length))

/-- JS `String.prototype.replace` with a global regex made of literal
    alternatives: scan left to right, at each position try the alternatives
    in order, replace a match and resume after it (replacement text is not
    rescanned). -/
def rwFuel (rules : List RwRule) : Nat → List Char → List Char
  | 0, _ => []
  | _ + 1, [] => []
  | fuel + 1, c :: rest =>
    match rules.find? (fun r => matchRule r (c :: rest)) with
    | some r => r.emit ++ rwFuel rules fuel (rest.drop (r.pat.length - 1))
    | none => c :: rwFuel rules fuel rest

/-- The scan, run with enough fuel (each step consumes at least one
    character, so `s.length` steps always suffice). -/
def rwList (rules : List RwRule) (s : List Char) : List Char := rwFuel rules s.length s

def hrefEq : List Char := ['h', 'r', 'e', 'f', '=']

def srcEq : List Char := ['s', 'r', 'c', '=']

def actionEq : List Char := ['a', 'c', 't', 'i', 'o', 'n', '=']

def httpSS : List Char := ['h', 't', 't', 'p', ':', '/', '/']

def httpsSS : List Char := ['h', 't', 't', 'p', 's', ':', '/', '/']

/-- The inserted prefix of the absolute-link rewrite:
    template `${protocol}//${host}/` (note `protocol` carries its colon). -/
def absIns (protocol host : String) : List Char := (protocol ++ "//" ++ host ++ "/").data

/-- The inserted prefix of the root-relative rewrite:
    template `${protocol}//${host}/${origin}/`. -/
def relIns (protocol host origin : String) : List Char :=
  (protocol ++ "//" ++ host ++ "/" ++ origin ++ "/").data

/-- The rules of the regex `(href|src)="(https?://.*?)` with replacement
    `$1="${protocol}//${host}/$2`: the trailing lazy `.*?` matches the
    empty string, so the match is exactly attribute + `="` + scheme + `://`
    and the replacement re-emits it with the proxy prefix inserted after
    the opening quote.  Only double-quoted attributes are matched. -/
def absRules (ins : List Char) : List RwRule :=
  [⟨hrefEq ++ [dqChar] ++ httpsSS, hrefEq ++ [dqChar] ++ ins ++ httpsSS, false⟩,
   ⟨hrefEq ++ [dqChar] ++ httpSS, hrefEq ++ [dqChar] ++ ins ++ httpSS, false⟩,
   ⟨srcEq ++ [dqChar] ++ httpsSS, srcEq ++ [dqChar] ++ ins ++ httpsSS, false⟩,
   ⟨srcEq ++ [dqChar] ++ httpSS, srcEq ++ [dqChar] ++ ins ++ httpSS, false⟩]

/-- The rules of the regex `((href|src|action)=["'])/(?!/)` with
    replacement `$1${protocol}//${host}/${origin}/`: the matched `/` after
    the quote is consumed and the replacement ends with a single `/`.
    Both quote styles are matched. -/
def relRules (ins : List Char) : List RwRule :=
  [⟨hrefEq ++ [dqChar, slashChar], hrefEq ++ [dqChar] ++ ins, true⟩,
   ⟨hrefEq ++ [sqChar, slashChar], hrefEq ++ [sqChar] ++ ins, true⟩,
   ⟨srcEq ++ [dqChar, slashChar], srcEq ++ [dqChar] ++ ins, true⟩,
   ⟨srcEq ++ [sqChar, slashChar], srcEq ++ [sqChar] ++ ins, true⟩,
   ⟨actionEq ++ [dqChar, slashChar], actionEq ++ [dqChar] ++ ins, true⟩,
   ⟨actionEq ++ [sqChar, slashChar], actionEq ++ [sqChar] ++ ins, true⟩]

/-- src/index.ts lines 130-132: the absolute-link rewrite applied inside
    `handleHtmlContent`. -/
def absLinkRewrite (text protocol host : String) : String :=
  String.mk (rwList (absRules (absIns protocol host)) text.data)

/-- src/index.ts `replaceRelativePaths`. -/
def replaceRelativePaths (text protocol host origin : String) : String :=
  String.mk (rwList (relRules (relIns protocol host origin)) text.data)

def gbMarker : String := "charset=gb2312"

def utfMarker : String := "charset=utf-8"

/-- Message of the `TypeError` thrown by the platform `new URL` on input
    that does not parse (modelled; only the fact that a message string is
    produced matters to the source). -/
def invalidUrlMsg : String := "Invalid URL"

/-- Message of the `URIError` thrown by `decodeURIComponent` (modelled). -/
def uriMalformedMsg : String := "URI malformed"

/-- src/index.ts `handleHtmlContent`: buffer the body, decode it as UTF-8;
    if the decoded text contains the `charset=gb2312` marker, re-decode the
    same bytes with the GB2312 codec (kept abstract as `gbDecode`) and
    replace the first marker occurrence with `charset=utf-8`; then run the
    absolute-link rewrite and `replaceRelativePaths` (whose `origin`
    argument is `new URL(actualUrlStr).origin`, which throws on an
    unparseable URL, modelled by the `Except.error` branch). -/
def handleHtmlContent (gbDecode : List Nat → String) (bodyBytes : List Nat)
    (protocol host actualUrlStr : String) : Except String String :=
  let res := utf8Decode bodyBytes
  let res :=
    if hasSubStr gbMarker res then replaceFirstStr gbMarker utfMarker (gbDecode bodyBytes)
    else res
  let res := absLinkRewrite res protocol host
  match parseURL actualUrlStr with
  | none => Except.error invalidUrlMsg
  | some u => Except.ok (replaceRelativePaths res protocol host u.origin)

/-- An outbound response as observed from `fetch`. -/
structure OutResponse where
  status : Nat
  statusText : String
  headers : List (String × String)
  body : List Nat
  deriving DecidableEq, Repr

/-- A response body: a pass-through byte stream, rewritten/generated text,
    or the absent body of `new Response(null, ...)`. -/
inductive RespBody where
  | empty : RespBody
  | text : String → RespBody
  | stream : List Nat → RespBody
  deriving DecidableEq, Repr

/-- The response returned to the client. -/
structure WResponse where
  status : Nat
  statusText : String
  headers : List (String × String)
  body : RespBody
  deriving DecidableEq, Repr

/-- src/index.ts `handleRedirect`: read the `location` header (empty string
    when absent), parse it with `new URL` (failure propagates as a thrown
    error, modelled by `Except.error`), and return a response with the same
    status, status text and body.  The headers are built from
    `{...response.headers, Location: modifiedLocation}`: object spread of a
    `Headers` instance copies no entries (a `Headers` object has no own
    enumerable properties), so the constructed header set holds only the
    rewritten `Location`. -/
def handleRedirect (response : OutResponse) : Except String WResponse :=
  let locRaw := (headerGet response.headers ("location")).getD ("")
  match parseURL locRaw with
  | none => Except.error invalidUrlMsg
  | some loc =>
    let modifiedLocation := String.mk (slashChar :: encodeURIComponentL loc.href.data)
    Except.ok
      { status := response.status, statusText := response.statusText,
        headers := [(("Location"), modifiedLocation)],
        body := RespBody.stream response.body }

/-- One JSON string-escape step of `JSON.stringify`. -/
def jsonEscapeChar (c : Char) : List Char :=
  if c = dqChar then [Char.ofNat 92, dqChar]
  else if c = Char.ofNat 92 then [Char.ofNat 92, Char.ofNat 92]
  else if c.toNat = 10 then [Char.ofNat 92, Char.ofNat 110]
  else if c.toNat = 13 then [Char.ofNat 92, Char.ofNat 114]
  else if c.toNat = 9 then [Char.ofNat 92, Char.ofNat 116]
  else if c.toNat = 8 then [Char.ofNat 92, Char.ofNat 98]
  else if c.toNat = 12 then [Char.ofNat 92, Char.ofNat 102]
  else if c.toNat < 32 then
    [Char.ofNat 92, Char.ofNat 117, Char.ofNat 48, Char.ofNat 48,
     lowerChar (hexDigitChar (c.toNat / 16)), lowerChar (hexDigitChar (c.toNat % 16))]
  else [c]

/-- `JSON.stringify` of a string value. -/
def jsonQuote (s : String) : String :=
  String.mk ([dqChar] ++ s.data.foldr (fun c acc => jsonEscapeChar c ++ acc) [] ++ [dqChar])

/-- `JSON.stringify({ error: msg })`. -/
def errorEnvelope (msg : String) : String :=
  "\x7b\"error\":" ++ jsonQuote msg ++ "\x7d"

def ctJson : String := "application/json; charset=utf-8"

/-- src/index.ts `jsonResponse`, applied to the `JSON.stringify` image of
    its data argument: a response with the given status and a JSON
    content type (a constructed `Response` has status text `""`). -/
def jsonResponse (body : String) (status : Nat) : WResponse :=
  { status := status, statusText := "",
    headers := [(("Content-Type"), ctJson)], body := RespBody.text body }

/-- src/index.ts `setNoCacheHeaders`. -/
def setNoCacheHeaders (hs : List (String × String)) : List (String × String) :=
  headerSet hs ("Cache-Control") ("no-store")

/-- src/index.ts `setCorsHeaders`. -/
def setCorsHeaders (hs : List (String × String)) : List (String × String) :=
  headerSet
    (headerSet (headerSet hs ("Access-Control-Allow-Origin") ("*"))
      ("Access-Control-Allow-Methods") ("GET, POST, PUT, DELETE"))
    ("Access-Control-Allow-Headers") ("*")

/-- src/index.ts `ensureProtocol`. -/
def ensureProtocol (url defaultProtocol : String) : String :=
  if strPrefix ("http://") url || strPrefix ("https://") url then url
  else defaultProtocol ++ "//" ++ url

/-- The test of `path_regex = /^\/https?%3A%2F%2F|^\/https?:\//` on the
    pathname: either alternative anchored at the start, i.e. one of the
    four literal prefixes below (note the second alternative requires only
    a single `/` after the colon). -/
def pathRegexTest (p : String) : Bool :=
  strPrefix ("/http%3A%2F%2F") p || strPrefix ("/https%3A%2F%2F") p ||
  strPrefix ("/http:/") p || strPrefix ("/https:/") p

/-- The header predicate of line 37: keep names not starting with `cf-`
    (the `Headers` iterator yields names in lowercase). -/
def cfPred (name : String) : Bool := !(strPrefix ("cf-") name)

/-- The inbound request, with its URL already split into the components
    the source reads from `new URL(request.url)` (`protocol` carries its
    trailing colon; `search` is empty or starts with `?`). -/
structure InRequest where
  method : String
  protocol : String
  host : String
  pathname : String
  search : String
  headers : List (String × String)
  body : Option (List Nat)
  deriving DecidableEq, Repr

def manualRedirect : String := "manual"

/-- The outbound dispatch of lines 40-53.  Per the Fetch standard,
    `fetch(modifiedRequest, { headers: request.headers })` builds the
    dispatched request with the init's header list replacing the input
    request's, so the effective header list (`headers`) is the original
    inbound one, while the constructed `Request` object (`reqHeaders`)
    carries the filtered list. -/
structure Dispatch where
  url : String
  method : String
  reqHeaders : List (String × String)
  headers : List (String × String)
  body : Option (List Nat)
  redirect : String
  deriving DecidableEq, Repr

/-- The dispatch the handler performs for a given extracted target URL. -/
def buildDispatch (request : InRequest) (actualUrlStr : String) : Dispatch :=
  { url := actualUrlStr, method := request.method,
    reqHeaders := filterHeaders request.headers cfPred,
    headers := request.headers,
    body := request.body, redirect := manualRedirect }

/-- `[301, 302, 303, 307, 308].includes(response.status)`. -/
def statusIsRedirect (status : Nat) : Bool := [301, 302, 303, 307, 308].contains status

/-- `response.headers.get('Content-Type')?.includes('text/html')`. -/
def contentTypeIsHtml (response : OutResponse) : Bool :=
  match headerGet response.headers ("Content-Type") with
  | some v => hasSubStr ("text/html") v
  | none => false

/-- Modelled from the spec: the bundled static landing-page asset
    (`src/default.html`, imported by the source but absent from the
    repository snapshot); the spec treats it as an opaque static asset, so
    its concrete content is irrelevant to every claim below. -/
def defaultHtml : String := "<!doctype html><title>proxy</title>"

/-- Lines 72-76: the finalisation applied to the pass-through and
    HTML-rewrite responses (`setNoCacheHeaders` then `setCorsHeaders`). -/
def finalizeResponse (r : WResponse) : WResponse :=
  { r with headers := setCorsHeaders (setNoCacheHeaders r.headers) }

/-- The search-redirect `Location` of line 22. -/
def bingLocation (request : InRequest) : String :=
  request.protocol ++ "//" ++ request.host ++ "/https://www.bing.com/search?q=" ++
    strDrop request.pathname 1

/-- src/index.ts `handleRequest`: the full pipeline.  `gbDecode` stands for
    the platform GB2312 `TextDecoder`; `fetcher` stands for the network,
    mapping the dispatch to an outbound response (`Except.error` models a
    rejected fetch with the error's message).  Every failure inside the
    `try` block lands in a `jsonResponse (errorEnvelope msg) 500` branch,
    the translation of the top-level `catch`. -/
def handleRequest (gbDecode : List Nat → String)
    (fetcher : Dispatch → Except String OutResponse) (request : InRequest) : WResponse :=
  if request.pathname = "/" then
    { status := 200, statusText := "",
      headers := [(("Content-Type"), ("text/html; charset=utf-8"))],
      body := RespBody.text defaultHtml }
  else if pathRegexTest request.pathname = false then
    { status := 302, statusText := "",
      headers := [(("Location"), bingLocation request)], body := RespBody.empty }
  else
    match percentDecodeStr (replaceFirstStr ("/") ("") request.pathname) with
    | none => jsonResponse (errorEnvelope uriMalformedMsg) 500
    | some decoded =>
      let actualUrlStr := ensureProtocol decoded request.protocol ++ request.search
      match fetcher (buildDispatch request actualUrlStr) with
      | Except.error msg => jsonResponse (errorEnvelope msg) 500
      | Except.ok response =>
        if statusIsRedirect response.status = true then
          match handleRedirect response with
          | Except.error msg => jsonResponse (errorEnvelope msg) 500
          | Except.ok r => r
        else if contentTypeIsHtml response = true then
          match handleHtmlContent gbDecode response.body request.protocol request.host
              actualUrlStr with
          | Except.error msg => jsonResponse (errorEnvelope msg) 500
          | Except.ok newBody =>
            finalizeResponse
              { status := response.status, statusText := response.statusText,
                headers := response.headers, body := RespBody.text newBody }
        else
          finalizeResponse
            { status := response.status, statusText := response.statusText,
              headers := response.headers, body := RespBody.stream response.body }

theorem rwFuel_congr (rules : List RwRule) :
    ∀ (fuel fuel' : Nat) (s : List Char), s.length ≤ fuel → s.length ≤ fuel' →
      rwFuel rules fuel s = rwFuel rules fuel' s := by
  intro fuel
  induction fuel with
  | zero =>
    intro fuel' s h h'
    have hs : s = [] := by cases s <;> simp_all
    subst hs
    cases fuel' <;> rfl
  | succ n ih =>
    intro fuel' s h h'
    cases s with
    | nil => cases fuel' <;> rfl
    | cons c rest =>
      cases fuel' with
      | zero => simp at h'
      | succ n' =>
        simp only [rwFuel]
        cases hf : rules.find? (fun r => matchRule r (c :: rest)) with
        | some r =>
          dsimp only
          have hl1 : (rest.drop (r.pat.length - 1)).length ≤ n := by
            simp only [List.length_cons] at h
            simp only [List.length_drop]
            omega
          have hl2 : (rest.drop (r.pat.length - 1)).length ≤ n' := by
            simp only [List.length_cons] at h'
            simp only [List.length_drop]
            omega
          rw [ih n' _ hl1 hl2]
        | none =>
          dsimp only
          have hl1 : rest.length ≤ n := by
            simp only [List.length_cons] at h
            omega
          have hl2 : rest.length ≤ n' := by
            simp only [List.length_cons] at h'
            omega
          rw [ih n' rest hl1 hl2]

theorem rwList_cons_some (rules : List RwRule) (c : Char) (rest : List Char) (r : RwRule)
    (h : rules.find? (fun r => matchRule r (c :: rest)) = some r) :
    rwList rules (c :: rest) = r.emit ++ rwList rules (rest.drop (r.pat.length - 1)) := by
  show rwFuel rules (c :: rest).length (c :: rest) = _
  simp only [List.length_cons, rwFuel, h]
  rw [rwFuel_congr rules rest.length (rest.drop (r.pat.length - 1)).length
    (rest.drop (r.pat.length - 1)) (by simp only [List.length_drop]; omega) (le_refl _)]
  rfl

theorem rwList_cons_none (rules : List RwRule) (c : Char) (rest : List Char)
    (h : rules.find? (fun r => matchRule r (c :: rest)) = none) :
    rwList rules (c :: rest) = c :: rwList rules rest := by
  show rwFuel rules (c :: rest).length (c :: rest) = _
  simp only [List.length_cons, rwFuel, h]
  rfl

theorem infix_iff_prefix_drop (M s : List Char) : M <:+: s ↔ ∃ j, M <+: s.drop j := by
  constructor
  · rintro ⟨u, t, rfl⟩
    refine ⟨u.length, ?_⟩
    rw [List.append_assoc, List.drop_left]
    exact List.prefix_append M t
  · rintro ⟨j, hj⟩
    exact hj.isInfix.trans (List.drop_suffix j s).isInfix

theorem hasSubL_eq_true_iff (p : List Char) : ∀ s, hasSubL p s = true ↔ p <:+: s := by
  intro s
  induction s with
  | nil => simp [hasSubL, List.isEmpty_iff]
  | cons c rest ih => simp [hasSubL, ih, List.infix_cons_iff]

def patsOf (rules : List RwRule) : List (List Char) := rules.map (fun r => r.pat)

/-- No rule pattern and the marker can begin at the same position. -/
def NoHeadOverlap (pats : List (List Char)) (M : List Char) : Prop :=
  ∀ q ∈ pats, ¬ M <+: q ∧ ¬ q <+: M

instance decNoHeadOverlap (pats : List (List Char)) (M : List Char) :
    Decidable (NoHeadOverlap pats M) :=
  inferInstanceAs (Decidable (∀ q ∈ pats, ¬ M <+: q ∧ ¬ q <+: M))

/-- The marker cannot begin strictly inside a rule pattern match. -/
def NoOverlapInsidePat (pats : List (List Char)) (M : List Char) : Prop :=
  ∀ q ∈ pats, ∀ i, i < q.length → 1 ≤ i → ¬ M <+: q.drop i ∧ ¬ q.drop i <+: M

instance decNoOverlapInsidePat (pats : List (List Char)) (M : List Char) :
    Decidable (NoOverlapInsidePat pats M) :=
  inferInstanceAs
    (Decidable (∀ q ∈ pats, ∀ i, i < q.length → 1 ≤ i → ¬ M <+: q.drop i ∧ ¬ q.drop i <+: M))

/-- No rule pattern can begin strictly inside a marker occurrence. -/
def NoOverlapInsideM (pats : List (List Char)) (M : List Char) : Prop :=
  ∀ q ∈ pats, ∀ i, i < M.length → 1 ≤ i → ¬ q <+: M.drop i ∧ ¬ M.drop i <+: q

instance decNoOverlapInsideM (pats : List (List Char)) (M : List Char) :
    Decidable (NoOverlapInsideM pats M) :=
  inferInstanceAs
    (Decidable (∀ q ∈ pats, ∀ i, i < M.length → 1 ≤ i → ¬ q <+: M.drop i ∧ ¬ M.drop i <+: q))

theorem prefix_tail_rwList (rules : List RwRule) (M : List Char)
    (h3 : NoOverlapInsideM (patsOf rules) M) :
    ∀ (s : List Char) (i : Nat), 1 ≤ i → M.drop i <+: s → M.drop i <+: rwList rules s := by
  intro s
  induction s with
  | nil =>
    intro i h1 hp
    simp only [List.prefix_nil] at hp
    simp [rwList, rwFuel, hp]
  | cons c rest ih =>
    intro i h1 hp
    by_cases hlen : M.length ≤ i
    · simp [List.drop_eq_nil_of_le hlen]
    · push_neg at hlen
      have hfind : rules.find? (fun r => matchRule r (c :: rest)) = none := by
        rw [List.find?_eq_none]
        intro r hr hmr
        have hparts := hmr
        simp only [matchRule, Bool.and_eq_true] at hparts
        have hpre : r.pat <+: c :: rest := List.isPrefixOf_iff_prefix.mp hparts.1
        have hqmem : r.pat ∈ patsOf rules := List.mem_map_of_mem (fun r => r.pat) hr
        rcases List.prefix_or_prefix_of_prefix hpre hp with hc | hc
        · exact (h3 r.pat hqmem i hlen h1).1 hc
        · exact (h3 r.pat hqmem i hlen h1).2 hc
      rw [rwList_cons_none rules c rest hfind]
      rw [List.drop_eq_getElem_cons hlen] at hp ⊢
      rw [List.cons_prefix_cons] at hp
      obtain ⟨hceq, htl⟩ := hp
      exact List.cons_prefix_cons.mpr ⟨hceq, ih (i + 1) (by omega) htl⟩

theorem infix_rwList (rules : List RwRule) (M : List Char)
    (h1 : NoHeadOverlap (patsOf rules) M)
    (h2 : NoOverlapInsidePat (patsOf rules) M)
    (h3 : NoOverlapInsideM (patsOf rules) M) :
    ∀ (n : Nat) (s : List Char), s.length ≤ n → M <:+: s → M <:+: rwList rules s := by
  intro n
  induction n with
  | zero =>
    intro s hl hi
    have hs : s = [] := by cases s <;> simp_all
    subst hs
    simpa [rwList, rwFuel] using hi
  | succ n ih =>
    intro s hl hi
    cases s with
    | nil => simpa [rwList, rwFuel] using hi
    | cons c rest =>
      cases hfind : rules.find? (fun r => matchRule r (c :: rest)) with
      | some r =>
        have hr := List.mem_of_find?_eq_some hfind
        have hmr := List.find?_some hfind
        have hparts := hmr
        simp only [matchRule, Bool.and_eq_true] at hparts
        have hpre : r.pat <+: c :: rest := List.isPrefixOf_iff_prefix.mp hparts.1
        have hqmem : r.pat ∈ patsOf rules := List.mem_map_of_mem (fun r => r.pat) hr
        have hplen : 1 ≤ r.pat.length := by
          cases hq : r.pat with
          | nil => exact absurd (by rw [hq]; exact List.nil_prefix) (h1 r.pat hqmem).2
          | cons a l => simp
        rw [rwList_cons_some rules c rest r hfind]
        obtain ⟨j, hj⟩ := (infix_iff_prefix_drop M (c :: rest)).mp hi
        rcases Nat.lt_or_ge j 1 with hj0 | hj1
        · exfalso
          have hj' : M <+: c :: rest := by
            have : j = 0 := by omega
            simpa [this] using hj
          rcases List.prefix_or_prefix_of_prefix hj' hpre with hc | hc
          · exact (h1 r.pat hqmem).1 hc
          · exact (h1 r.pat hqmem).2 hc
        · rcases Nat.lt_or_ge j r.pat.length with hjp | hjp
          · exfalso
            have hpd : r.pat.drop j <+: (c :: rest).drop j := by
              obtain ⟨w, hw⟩ := hpre
              have hsplit : r.pat ++ w = r.pat.take j ++ (r.pat.drop j ++ w) := by
                rw [← List.append_assoc, List.take_append_drop]
              rw [← hw, hsplit,
                List.drop_left' (by simp [List.length_take]; omega)]
              exact List.prefix_append _ _
            rcases List.prefix_or_prefix_of_prefix hj hpd with hc | hc
            · exact (h2 r.pat hqmem j hjp hj1).1 hc
            · exact (h2 r.pat hqmem j hjp hj1).2 hc
          · have hdrop : M <+: (rest.drop (r.pat.length - 1)).drop (j - r.pat.length) := by
              rw [List.drop_drop]
              have heq : (r.pat.length - 1) + (j - r.pat.length) = j - 1 := by omega
              rw [heq]
              obtain ⟨j', rfl⟩ : ∃ j', j = j' + 1 := ⟨j - 1, by omega⟩
              simpa using hj
            have harg := ih (rest.drop (r.pat.length - 1))
              (by simp at hl ⊢; omega)
              ((infix_iff_prefix_drop M _).mpr ⟨_, hdrop⟩)
            exact harg.trans (List.suffix_append r.emit _).isInfix
      | none =>
        rw [rwList_cons_none rules c rest hfind]
        rcases List.infix_cons_iff.mp hi with hp | hinf
        · cases M with
          | nil => simp
          | cons m M2 =>
            rw [List.cons_prefix_cons] at hp
            obtain ⟨rfl, htl⟩ := hp
            have hpt := prefix_tail_rwList rules (m :: M2) h3 rest 1 le_rfl (by simpa using htl)
            simp only [List.drop_succ_cons, List.drop_zero] at hpt
            exact (List.cons_prefix_cons.mpr ⟨rfl, hpt⟩).isInfix
        · exact List.infix_cons (ih rest (by simp at hl; omega) hinf)

theorem hasSubL_rwList (rules : List RwRule) (M : List Char)
    (h1 : NoHeadOverlap (patsOf rules) M)
    (h2 : NoOverlapInsidePat (patsOf rules) M)
    (h3 : NoOverlapInsideM (patsOf rules) M)
    (s : List Char) (h : hasSubL M s = true) : hasSubL M (rwList rules s) = true :=
  (hasSubL_eq_true_iff M _).mpr
    (infix_rwList rules M h1 h2 h3 s.length s le_rfl ((hasSubL_eq_true_iff M s).mp h))

theorem rep_infix_replaceFirstL (pat rep : List Char) (hne : pat ≠ []) :
    ∀ s, hasSubL pat s = true → rep <:+: replaceFirstL pat rep s := by
  intro s
  induction s with
  | nil =>
    intro h
    simp [hasSubL, List.isEmpty_iff] at h
    exact absurd h hne
  | cons c rest ih =>
    intro h
    rw [replaceFirstL]
    by_cases hp : pat.isPrefixOf (c :: rest) = true
    · rw [if_pos hp]
      exact (List.prefix_append rep _).isInfix
    · rw [if_neg hp]
      simp only [hasSubL, Bool.or_eq_true] at h
      rcases h with h | h
      · exact absurd h hp
      · exact List.infix_cons (ih h)

theorem absRules_marker_conditions (p h : String) :
    NoHeadOverlap (patsOf (absRules (absIns p h))) utfMarker.data ∧
    NoOverlapInsidePat (patsOf (absRules (absIns p h))) utfMarker.data ∧
    NoOverlapInsideM (patsOf (absRules (absIns p h))) utfMarker.data := by
  have hpats : patsOf (absRules (absIns p h)) =
      [hrefEq ++ [dqChar] ++ httpsSS, hrefEq ++ [dqChar] ++ httpSS,
       srcEq ++ [dqChar] ++ httpsSS, srcEq ++ [dqChar] ++ httpSS] := rfl
  unfold NoHeadOverlap NoOverlapInsidePat NoOverlapInsideM
  rw [hpats]
  refine ⟨by decide, by decide, by decide⟩

theorem relRules_marker_conditions (p h o : String) :
    NoHeadOverlap (patsOf (relRules (relIns p h o))) utfMarker.data ∧
    NoOverlapInsidePat (patsOf (relRules (relIns p h o))) utfMarker.data ∧
    NoOverlapInsideM (patsOf (relRules (relIns p h o))) utfMarker.data := by
  have hpats : patsOf (relRules (relIns p h o)) =
      [hrefEq ++ [dqChar, slashChar], hrefEq ++ [sqChar, slashChar],
       srcEq ++ [dqChar, slashChar], srcEq ++ [sqChar, slashChar],
       actionEq ++ [dqChar, slashChar], actionEq ++ [sqChar, slashChar]] := rfl
  rw [hpats]
  refine ⟨by decide, by decide, by decide⟩


/-- The bytes of an ASCII string (its UTF-8 encoding). -/
def asciiBytes (s : String) : List Nat := s.data.map Char.toNat

/-- A one-character string holding a single quote. -/
def sqS : String := String.mk [sqChar]

/-- A probing fetcher distinguishing whether the effective dispatch headers
    all pass the `cf-` filter. -/
def cfProbeFetcher : Dispatch → Except String OutResponse := fun d =>
  if d.headers.all (fun e => cfPred e.1) then
    Except.ok
      { status := 200, statusText := ("OK"),
        headers := [(("Content-Type"), ("text/plain"))], body := [] }
  else
    Except.ok
      { status := 418, statusText := ("IAmATeapot"),
        headers := [(("Content-Type"), ("text/plain"))], body := [] }

theorem find?_filter_ne (hs : List (String × String)) (n m : String)
    (hne : lowerStr m ≠ lowerStr n) :
    (hs.filter (fun h => lowerStr h.1 ≠ lowerStr n)).find? (fun h => lowerStr h.1 = lowerStr m)
      = hs.find? (fun h => lowerStr h.1 = lowerStr m) := by
  induction hs with
  | nil => rfl
  | cons e rest ih =>
    by_cases hem : lowerStr e.1 = lowerStr m
    · have hen : lowerStr e.1 ≠ lowerStr n := fun h => hne (hem.symm.trans h)
      rw [List.filter_cons, if_pos (by simpa using hen),
        List.find?_cons_of_pos _ (by simpa using hem),
        List.find?_cons_of_pos _ (by simpa using hem)]
    · by_cases hen : lowerStr e.1 = lowerStr n
      · rw [List.filter_cons, if_neg (by simpa using hen),
          List.find?_cons_of_neg _ (by simpa using hem)]
        exact ih
      · rw [List.filter_cons, if_pos (by simpa using hen),
          List.find?_cons_of_neg _ (by simpa using hem),
          List.find?_cons_of_neg _ (by simpa using hem)]
        exact ih

theorem headerGet_headerSet_same (hs : List (String × String)) (n v : String) :
    headerGet (headerSet hs n v) n = some v := by
  have hleft : (hs.filter (fun h => lowerStr h.1 ≠ lowerStr n)).find?
      (fun h => lowerStr h.1 = lowerStr n) = none := by
    rw [List.find?_eq_none]
    intro x hx
    have hk := (List.mem_filter.mp hx).2
    simp only [ne_eq, decide_not, Bool.not_eq_true', decide_eq_false_iff_not] at hk
    simp [hk]
  simp [headerGet, headerSet, List.find?_append, hleft, List.find?]

theorem headerGet_headerSet_other (hs : List (String × String)) (n m v : String)
    (hne : lowerStr m ≠ lowerStr n) :
    headerGet (headerSet hs n v) m = headerGet hs m := by
  have hnm : ¬ (lowerStr n = lowerStr m) := fun h => hne h.symm
  simp only [headerGet, headerSet, List.find?_append, find?_filter_ne hs n m hne]
  rw [List.find?_cons_of_neg _ (by simpa using hnm)]
  simp [Option.or_none]

/-- C1: the claim fails at an inbound request carrying a `cf-ray` header:
    the constructed outbound `Request` object is filtered, but the header
    list supplied at the fetch dispatch (the init override, i.e. the
    original inbound headers) still contains the `cf-` header, and a
    fetcher inspecting its effective headers observes it. -/
theorem C1_counterexample :
    ((buildDispatch
        { method := ("GET"), protocol := ("https:"), host := ("proxy.example"),
          pathname := ("/https://example.com/"), search := (""),
          headers := [(("cf-ray"), ("8a1b2c"))], body := none }
        ("https://example.com/")).reqHeaders.all (fun e => cfPred e.1) = true)
    ∧ ((buildDispatch
        { method := ("GET"), protocol := ("https:"), host := ("proxy.example"),
          pathname := ("/https://example.com/"), search := (""),
          headers := [(("cf-ray"), ("8a1b2c"))], body := none }
        ("https://example.com/")).headers.all (fun e => cfPred e.1) = false)
    ∧ (handleRequest (fun _ => ("")) cfProbeFetcher
        { method := ("GET"), protocol := ("https:"), host := ("proxy.example"),
          pathname := ("/https://example.com/"), search := (""),
          headers := [(("cf-ray"), ("8a1b2c"))], body := none }).status = 418 := by
  refine ⟨rfl, rfl, rfl⟩

/-- C1 amended: the constructed outbound `Request` object carries only
    headers passing the `cf-` filter, while the header list supplied at
    the fetch dispatch is the unfiltered inbound list. -/
theorem C1_theorem :
    ∀ (request : InRequest) (actualUrlStr : String),
      (buildDispatch request actualUrlStr).reqHeaders.all (fun e => cfPred e.1) = true
      ∧ (buildDispatch request actualUrlStr).headers = request.headers := by
  intro request u
  refine ⟨?_, rfl⟩
  simp only [buildDispatch, filterHeaders, List.all_eq_true]
  intro e he
  exact (List.mem_filter.mp he).2

/-- C3 (code bug): on a redirect response with an extra `x-test` header,
    the rewritten response keeps status, status text and body, but its
    header set holds only the rewritten `Location`: the `x-test` header is
    dropped, because object spread of a `Headers` instance copies no
    entries. -/
theorem C3_theorem :
    handleRedirect
        { status := 302, statusText := ("Found"),
          headers := [(("Location"), ("https://example.com/bar")), (("x-test"), ("1"))],
          body := [104, 105] }
      = Except.ok
          { status := 302, statusText := ("Found"),
            headers := [(("Location"), ("/https%3A%2F%2Fexample.com%2Fbar"))],
            body := RespBody.stream [104, 105] } := by
  rfl

/-- One-step unfolding of the root-relative rewrite at a double-quoted
    `src` attribute: the matched slash is consumed and the emitted text
    ends with the single slash of the inserted prefix. -/
theorem relRules_step_src_dq (p h o : String) (v : List Char) (hg : noSlashGuard v = true) :
    rwList (relRules (relIns p h o)) (srcEq ++ [dqChar, slashChar] ++ v)
      = srcEq ++ [dqChar] ++ relIns p h o ++ rwList (relRules (relIns p h o)) v := by
  have hfind : (relRules (relIns p h o)).find?
      (fun r => matchRule r (srcEq ++ [dqChar, slashChar] ++ v))
      = some ⟨srcEq ++ [dqChar, slashChar], srcEq ++ [dqChar] ++ relIns p h o, true⟩ := by
    simp +decide [relRules, matchRule, List.find?, List.isPrefixOf,
      hrefEq, srcEq, actionEq, hg]
  rw [show srcEq ++ [dqChar, slashChar] ++ v
      = 's' :: 'r' :: 'c' :: '=' :: dqChar :: slashChar :: v from rfl] at hfind ⊢
  rw [rwList_cons_some _ _ _ _ hfind]
  rfl

/-- C4: at the spec's own example the root-relative rewrite yields a
    single slash after the origin, not the claimed double slash: the
    matched `/` is consumed by the regex and the replacement ends with
    exactly one `/`. -/
theorem C4_counterexample :
    replaceRelativePaths ("<img src=\"/logo.png\">") ("https:") ("proxy.example")
        ("https://example.com")
      = ("<img src=\"https://proxy.example/https://example.com/logo.png\">")
    ∧ replaceRelativePaths ("<img src=\"/logo.png\">") ("https:") ("proxy.example")
        ("https://example.com")
      ≠ ("<img src=\"https://proxy.example/https://example.com//logo.png\">") := by
  refine ⟨rfl, by decide⟩

/-- C4 amended: a root-relative `src="/...` link is rewritten by replacing
    the matched quote-plus-slash with the quote followed by
    `{protocol}//{host}/{origin}/`, so the original leading slash is
    consumed and a single slash follows the origin, as the concrete
    example shows. -/
theorem C4_theorem :
    (∀ (protocol host origin : String) (v : List Char), noSlashGuard v = true →
      rwList (relRules (relIns protocol host origin)) (srcEq ++ [dqChar, slashChar] ++ v)
        = srcEq ++ [dqChar] ++ relIns protocol host origin
            ++ rwList (relRules (relIns protocol host origin)) v)
    ∧ replaceRelativePaths ("<img src=\"/logo.png\">") ("https:") ("proxy.example")
        ("https://example.com")
      = ("<img src=\"https://proxy.example/https://example.com/logo.png\">") :=
  ⟨relRules_step_src_dq, rfl⟩

/-- C4 witness: the amended rewrite equation applied at a concrete tail. -/
theorem C4_witness :
    noSlashGuard [Char.ofNat 120] = true ∧
    rwList (relRules (relIns ("https:") ("proxy.example") ("https://example.com")))
        (srcEq ++ [dqChar, slashChar] ++ [Char.ofNat 120])
      = srcEq ++ [dqChar] ++ relIns ("https:") ("proxy.example") ("https://example.com")
          ++ rwList (relRules (relIns ("https:") ("proxy.example") ("https://example.com")))
              [Char.ofNat 120] :=
  ⟨by decide,
    C4_theorem.1 ("https:") ("proxy.example") ("https://example.com") [Char.ofNat 120] (by decide)⟩

/-- C5: the claim's pattern differs from the code's regex
    `^\/https?%3A%2F%2F|^\/https?:\//`: the path
    `/https%3A%2F%2Fexample.com` does not match the claim's pattern
    `^/https?(:%2F%2F|://)`, yet the code proxies it (the fetched 200
    passes through) instead of returning the claimed search redirect. -/
theorem C5_counterexample :
    (handleRequest (fun _ => (""))
        (fun _ => Except.ok
          { status := 200, statusText := ("OK"),
            headers := [(("Content-Type"), ("text/plain"))], body := [] })
        { method := ("GET"), protocol := ("https:"), host := ("proxy.example"),
          pathname := ("/https%3A%2F%2Fexample.com"), search := (""), headers := [],
          body := none }).status = 200
    ∧ ¬ ((handleRequest (fun _ => (""))
        (fun _ => Except.ok
          { status := 200, statusText := ("OK"),
            headers := [(("Content-Type"), ("text/plain"))], body := [] })
        { method := ("GET"), protocol := ("https:"), host := ("proxy.example"),
          pathname := ("/https%3A%2F%2Fexample.com"), search := (""), headers := [],
          body := none }).status = 302) := by
  refine ⟨rfl, by decide⟩

/-- C5 amended: for every path that is not the root and fails the code's
    own regex test, the handler returns 302 with the search `Location`
    built from the raw path tail. -/
theorem C5_theorem :
    ∀ (gbDecode : List Nat → String) (fetcher : Dispatch → Except String OutResponse)
      (request : InRequest),
      request.pathname ≠ ("/") →
      pathRegexTest request.pathname = false →
      (handleRequest gbDecode fetcher request).status = 302
      ∧ headerGet (handleRequest gbDecode fetcher request).headers ("Location")
          = some (request.protocol ++ "//" ++ request.host ++ "/https://www.bing.com/search?q="
              ++ strDrop request.pathname 1) := by
  intro gb f request h1 h2
  unfold handleRequest
  rw [if_neg h1, if_pos h2]
  refine ⟨rfl, ?_⟩
  simp +decide [headerGet, List.find?, bingLocation]

/-- C5 witness: the amended statement at the path `/hello`. -/
theorem C5_witness :
    (handleRequest (fun _ => ("")) (fun _ => Except.error ("x"))
        { method := ("GET"), protocol := ("https:"), host := ("proxy.example"),
          pathname := ("/hello"), search := (""), headers := [], body := none }).status = 302
    ∧ headerGet (handleRequest (fun _ => ("")) (fun _ => Except.error ("x"))
        { method := ("GET"), protocol := ("https:"), host := ("proxy.example"),
          pathname := ("/hello"), search := (""), headers := [], body := none }).headers
        ("Location")
      = some (("https:") ++ "//" ++ ("proxy.example") ++ "/https://www.bing.com/search?q="
          ++ strDrop ("/hello") 1) :=
  C5_theorem (fun _ => ("")) (fun _ => Except.error ("x"))
    { method := ("GET"), protocol := ("https:"), host := ("proxy.example"),
      pathname := ("/hello"), search := (""), headers := [], body := none }
    (by decide) (by decide)

/-- C10: quote asymmetry of the two HTML rewrites: a single-quoted
    absolute link passes both rewrites unchanged, while root-relative
    links are rewritten under either quote style (for `href`, `src` and
    `action` alike). -/
theorem C10_theorem :
    (replaceRelativePaths
        (absLinkRewrite ("<a href=" ++ sqS ++ "https://other.com/x" ++ sqS ++ ">")
          ("https:") ("proxy.example"))
        ("https:") ("proxy.example") ("https://example.com")
      = ("<a href=" ++ sqS ++ "https://other.com/x" ++ sqS ++ ">"))
    ∧ (replaceRelativePaths ("<img src=" ++ sqS ++ "/pic.png" ++ sqS ++ ">")
        ("https:") ("proxy.example") ("https://example.com")
      = ("<img src=" ++ sqS ++ "https://proxy.example/https://example.com/pic.png" ++ sqS ++ ">"))
    ∧ (replaceRelativePaths ("<a href=" ++ sqS ++ "/p" ++ sqS ++ ">")
        ("https:") ("proxy.example") ("https://example.com")
      = ("<a href=" ++ sqS ++ "https://proxy.example/https://example.com/p" ++ sqS ++ ">"))
    ∧ (replaceRelativePaths ("<form action=" ++ sqS ++ "/p" ++ sqS ++ ">")
        ("https:") ("proxy.example") ("https://example.com")
      = ("<form action=" ++ sqS ++ "https://proxy.example/https://example.com/p" ++ sqS ++ ">"))
    ∧ (replaceRelativePaths ("<img src=\"/p\">")
        ("https:") ("proxy.example") ("https://example.com")
      = ("<img src=\"https://proxy.example/https://example.com/p\">")) := by
  refine ⟨rfl, rfl, rfl, rfl, rfl⟩

/-- One-step unfolding of the absolute-link rewrite at `href="https://`. -/
theorem absRules_step_href_https (p h : String) (v : List Char) :
    rwList (absRules (absIns p h)) (hrefEq ++ [dqChar] ++ httpsSS ++ v)
      = hrefEq ++ [dqChar] ++ absIns p h ++ httpsSS ++ rwList (absRules (absIns p h)) v := by
  have hfind : (absRules (absIns p h)).find?
      (fun r => matchRule r (hrefEq ++ [dqChar] ++ httpsSS ++ v))
      = some ⟨hrefEq ++ [dqChar] ++ httpsSS, hrefEq ++ [dqChar] ++ absIns p h ++ httpsSS,
          false⟩ := by
    simp +decide [absRules, matchRule, List.find?, List.isPrefixOf, hrefEq, srcEq,
      httpSS, httpsSS]
  rw [show hrefEq ++ [dqChar] ++ httpsSS ++ v
      = 'h' :: 'r' :: 'e' :: 'f' :: '=' :: dqChar :: 'h' :: 't' :: 't' :: 'p' :: 's' :: ':'
          :: '/' :: '/' :: v from rfl] at hfind ⊢
  rw [rwList_cons_some _ _ _ _ hfind]
  rfl

/-- One-step unfolding of the absolute-link rewrite at `href="http://`. -/
theorem absRules_step_href_http (p h : String) (v : List Char) :
    rwList (absRules (absIns p h)) (hrefEq ++ [dqChar] ++ httpSS ++ v)
      = hrefEq ++ [dqChar] ++ absIns p h ++ httpSS ++ rwList (absRules (absIns p h)) v := by
  have hfind : (absRules (absIns p h)).find?
      (fun r => matchRule r (hrefEq ++ [dqChar] ++ httpSS ++ v))
      = some ⟨hrefEq ++ [dqChar] ++ httpSS, hrefEq ++ [dqChar] ++ absIns p h ++ httpSS,
          false⟩ := by
    simp +decide [absRules, matchRule, List.find?, List.isPrefixOf, hrefEq, srcEq,
      httpSS, httpsSS]
  rw [show hrefEq ++ [dqChar] ++ httpSS ++ v
      = 'h' :: 'r' :: 'e' :: 'f' :: '=' :: dqChar :: 'h' :: 't' :: 't' :: 'p' :: ':'
          :: '/' :: '/' :: v from rfl] at hfind ⊢
  rw [rwList_cons_some _ _ _ _ hfind]
  rfl

/-- One-step unfolding of the absolute-link rewrite at `src="https://`. -/
theorem absRules_step_src_https (p h : String) (v : List Char) :
    rwList (absRules (absIns p h)) (srcEq ++ [dqChar] ++ httpsSS ++ v)
      = srcEq ++ [dqChar] ++ absIns p h ++ httpsSS ++ rwList (absRules (absIns p h)) v := by
  have hfind : (absRules (absIns p h)).find?
      (fun r => matchRule r (srcEq ++ [dqChar] ++ httpsSS ++ v))
      = some ⟨srcEq ++ [dqChar] ++ httpsSS, srcEq ++ [dqChar] ++ absIns p h ++ httpsSS,
          false⟩ := by
    simp +decide [absRules, matchRule, List.find?, List.isPrefixOf, hrefEq, srcEq,
      httpSS, httpsSS]
  rw [show srcEq ++ [dqChar] ++ httpsSS ++ v
      = 's' :: 'r' :: 'c' :: '=' :: dqChar :: 'h' :: 't' :: 't' :: 'p' :: 's' :: ':'
          :: '/' :: '/' :: v from rfl] at hfind ⊢
  rw [rwList_cons_some _ _ _ _ hfind]
  rfl

/-- One-step unfolding of the absolute-link rewrite at `src="http://`. -/
theorem absRules_step_src_http (p h : String) (v : List Char) :
    rwList (absRules (absIns p h)) (srcEq ++ [dqChar] ++ httpSS ++ v)
      = srcEq ++ [dqChar] ++ absIns p h ++ httpSS ++ rwList (absRules (absIns p h)) v := by
  have hfind : (absRules (absIns p h)).find?
      (fun r => matchRule r (srcEq ++ [dqChar] ++ httpSS ++ v))
      = some ⟨srcEq ++ [dqChar] ++ httpSS, srcEq ++ [dqChar] ++ absIns p h ++ httpSS,
          false⟩ := by
    simp +decide [absRules, matchRule, List.find?, List.isPrefixOf, hrefEq, srcEq,
      httpSS, httpsSS]
  rw [show srcEq ++ [dqChar] ++ httpSS ++ v
      = 's' :: 'r' :: 'c' :: '=' :: dqChar :: 'h' :: 't' :: 't' :: 'p' :: ':'
          :: '/' :: '/' :: v from rfl] at hfind ⊢
  rw [rwList_cons_some _ _ _ _ hfind]
  rfl

/-- C6: every double-quoted `href`/`src` absolute link match has the proxy
    prefix `{protocol}//{host}/` inserted right after the opening quote
    (prefix insertion without re-encoding), and at the spec's example the
    full HTML rewriter yields exactly the claimed output. -/
theorem C6_theorem :
    (handleHtmlContent (fun _ => ("")) (asciiBytes ("<a href=\"https://other.com/x\">"))
        ("https:") ("proxy.example") ("https://other.com/x")
      = Except.ok ("<a href=\"https://proxy.example/https://other.com/x\">"))
    ∧ (∀ (protocol host : String) (v : List Char),
        rwList (absRules (absIns protocol host)) (hrefEq ++ [dqChar] ++ httpsSS ++ v)
          = hrefEq ++ [dqChar] ++ absIns protocol host ++ httpsSS
              ++ rwList (absRules (absIns protocol host)) v)
    ∧ (∀ (protocol host : String) (v : List Char),
        rwList (absRules (absIns protocol host)) (hrefEq ++ [dqChar] ++ httpSS ++ v)
          = hrefEq ++ [dqChar] ++ absIns protocol host ++ httpSS
              ++ rwList (absRules (absIns protocol host)) v)
    ∧ (∀ (protocol host : String) (v : List Char),
        rwList (absRules (absIns protocol host)) (srcEq ++ [dqChar] ++ httpsSS ++ v)
          = srcEq ++ [dqChar] ++ absIns protocol host ++ httpsSS
              ++ rwList (absRules (absIns protocol host)) v)
    ∧ (∀ (protocol host : String) (v : List Char),
        rwList (absRules (absIns protocol host)) (srcEq ++ [dqChar] ++ httpSS ++ v)
          = srcEq ++ [dqChar] ++ absIns protocol host ++ httpSS
              ++ rwList (absRules (absIns protocol host)) v) :=
  ⟨rfl, absRules_step_href_https, absRules_step_href_http,
    absRules_step_src_https, absRules_step_src_http⟩


theorem pdFuel_congr :
    ∀ (fuel fuel' : Nat) (s : List Char), s.length ≤ fuel → s.length ≤ fuel' →
      pdFuel fuel s = pdFuel fuel' s := by
  intro fuel
  induction fuel with
  | zero =>
    intro fuel' s h h'
    have hs : s = [] := by cases s <;> simp_all
    subst hs
    cases fuel' <;> rfl
  | succ n ih =>
    intro fuel' s h h'
    cases s with
    | nil => cases fuel' <;> rfl
    | cons c rest =>
      cases fuel' with
      | zero => simp at h'
      | succ n' =>
        simp only [pdFuel]
        by_cases hc : c = percentChar
        · rw [if_pos hc, if_pos hc]
          cases hde : decodeEscape rest with
          | some pr =>
            dsimp only
            rw [ih n' (rest.drop pr.2)
              (by simp only [List.length_cons] at h; simp only [List.length_drop]; omega)
              (by simp only [List.length_cons] at h'; simp only [List.length_drop]; omega)]
          | none => rfl
        · rw [if_neg hc, if_neg hc]
          rw [ih n' rest (by simp at h; omega) (by simp at h'; omega)]

theorem percentDecodeL_cons_lit (c : Char) (rest : List Char) (h : ¬ c = percentChar) :
    percentDecodeL (c :: rest) = (percentDecodeL rest).map (fun l => c :: l) := by
  show pdFuel (c :: rest).length (c :: rest) = _
  simp only [List.length_cons, pdFuel, if_neg h]
  rfl

theorem percentDecodeL_cons_esc (rest : List Char) (ch : Char) (k : Nat)
    (hde : decodeEscape rest = some (ch, k)) :
    percentDecodeL (percentChar :: rest)
      = (percentDecodeL (rest.drop k)).map (fun l => ch :: l) := by
  show pdFuel (percentChar :: rest).length (percentChar :: rest) = _
  simp only [List.length_cons, pdFuel, if_pos rfl, hde]
  rw [if_pos trivial,
    pdFuel_congr rest.length (rest.drop k).length (rest.drop k)
      (by simp only [List.length_drop]; omega) le_rfl]
  rfl

theorem hexVal_hexDigitChar : ∀ m, m < 16 → hexVal (hexDigitChar m) = some m := by decide

theorem decodeEscape_ascii (d1 d2 : Char) (E : List Char) (a b : Nat)
    (ha : hexVal d1 = some a) (hb : hexVal d2 = some b) (hlt : 16 * a + b < 128) :
    decodeEscape (d1 :: d2 :: E) = some (Char.ofNat (16 * a + b), 2) := by
  unfold decodeEscape
  dsimp only
  rw [ha, hb]
  dsimp only
  rw [if_pos hlt]

theorem percentDecode_encode_ascii :
    ∀ (l : List Char), (∀ c ∈ l, c.toNat < 128) →
      percentDecodeL (encodeURIComponentL l) = some l := by
  intro l
  induction l with
  | nil => intro _; rfl
  | cons c rest ih =>
    intro hall
    have hc : c.toNat < 128 := hall c (by simp)
    have hrest : ∀ x ∈ rest, x.toNat < 128 := fun x hx => hall x (by simp [hx])
    have hE := ih hrest
    show percentDecodeL (encodeChar c ++ encodeURIComponentL rest) = some (c :: rest)
    by_cases hu : isUnreservedURI c = true
    · have hne : ¬ (c = percentChar) := by
        intro h
        rw [h] at hu
        exact absurd hu (by decide)
      simp only [encodeChar, if_pos hu, List.cons_append, List.nil_append]
      rw [percentDecodeL_cons_lit c _ hne, hE]
      rfl
    · have henc : encodeChar c
          = percentChar :: hexDigitChar (c.toNat / 16) :: hexDigitChar (c.toNat % 16) :: [] := by
        simp [encodeChar, hu, utf8EncodeChar, hc]
      rw [henc]
      simp only [List.cons_append, List.nil_append]
      rw [percentDecodeL_cons_esc _ _ 2
        (decodeEscape_ascii _ _ _ _ _ (hexVal_hexDigitChar _ (by omega))
          (hexVal_hexDigitChar _ (by omega)) (by omega))]
      simp only [List.drop_succ_cons, List.drop_zero]
      rw [hE]
      have hvc : 16 * (c.toNat / 16) + c.toNat % 16 = c.toNat := Nat.div_add_mod _ 16
      simp [hvc, Char.ofNat_toNat]

/-- C7 amended: for a parseable `Location`, the client-facing `Location`
    is `/` followed by the percent-encoding of the parsed URL's
    serialisation, and (for ASCII serialisations) percent-decoding that
    value reproduces the serialisation — which may differ from the
    original header by URL normalisation. -/
theorem C7_theorem :
    ∀ (response : OutResponse) (loc : String) (u : URLRec),
      headerGet response.headers ("location") = some loc →
      parseURL loc = some u →
      (∀ c ∈ u.href.data, c.toNat < 128) →
      handleRedirect response
        = Except.ok
            { status := response.status, statusText := response.statusText,
              headers := [(("Location"),
                String.mk (slashChar :: encodeURIComponentL u.href.data))],
              body := RespBody.stream response.body }
      ∧ percentDecodeL (encodeURIComponentL u.href.data) = some u.href.data := by
  intro response loc u hget hparse hascii
  refine ⟨?_, percentDecode_encode_ascii _ hascii⟩
  unfold handleRedirect
  rw [hget]
  dsimp only [Option.getD_some]
  rw [hparse]

/-- C7 witness: the amended statement at `Location: https://example.com/bar`. -/
theorem C7_witness :
    handleRedirect
        { status := 302, statusText := ("Found"),
          headers := [(("Location"), ("https://example.com/bar"))], body := [] }
      = Except.ok
          { status := 302, statusText := ("Found"),
            headers := [(("Location"),
              String.mk (slashChar
                :: encodeURIComponentL (URLRec.href ⟨("https"), ("example.com"), ("/bar")⟩).data))],
            body := RespBody.stream [] }
    ∧ percentDecodeL
        (encodeURIComponentL (URLRec.href ⟨("https"), ("example.com"), ("/bar")⟩).data)
      = some (URLRec.href ⟨("https"), ("example.com"), ("/bar")⟩).data :=
  C7_theorem
    { status := 302, statusText := ("Found"),
      headers := [(("Location"), ("https://example.com/bar"))], body := [] }
    ("https://example.com/bar") ⟨("https"), ("example.com"), ("/bar")⟩
    (by rfl) (by rfl) (by decide)

/-- C7: the round trip does not reproduce the original header verbatim in
    general: `Location: https://example.com` (no path) is normalised by
    URL parsing to `https://example.com/`, so the decoded value differs
    from the original header. -/
theorem C7_counterexample :
    handleRedirect
        { status := 301, statusText := ("Moved"),
          headers := [(("Location"), ("https://example.com"))], body := [] }
      = Except.ok
          { status := 301, statusText := ("Moved"),
            headers := [(("Location"), ("/https%3A%2F%2Fexample.com%2F"))],
            body := RespBody.stream [] }
    ∧ percentDecodeStr (strDrop ("/https%3A%2F%2Fexample.com%2F") 1)
        = some ("https://example.com/")
    ∧ ¬ (percentDecodeStr (strDrop ("/https%3A%2F%2Fexample.com%2F") 1)
        = some ("https://example.com")) := by
  refine ⟨rfl, rfl, by decide⟩

/-- C8: when the UTF-8 decoding of an HTML body shows the `charset=gb2312`
    marker (and the marker is visible in the GB2312 decoding of the same
    bytes), the rewriter re-decodes the same raw bytes with the GB2312
    codec, replaces the first marker occurrence by `charset=utf-8`, and the
    returned text still contains `charset=utf-8` after the link rewrites. -/
theorem C8_theorem :
    ∀ (gbDecode : List Nat → String) (bodyBytes : List Nat)
      (protocol host actualUrlStr : String) (u : URLRec),
      hasSubStr gbMarker (utf8Decode bodyBytes) = true →
      hasSubStr gbMarker (gbDecode bodyBytes) = true →
      parseURL actualUrlStr = some u →
      handleHtmlContent gbDecode bodyBytes protocol host actualUrlStr
        = Except.ok (replaceRelativePaths
            (absLinkRewrite (replaceFirstStr gbMarker utfMarker (gbDecode bodyBytes))
              protocol host)
            protocol host u.origin)
      ∧ hasSubStr utfMarker
          (replaceRelativePaths
            (absLinkRewrite (replaceFirstStr gbMarker utfMarker (gbDecode bodyBytes))
              protocol host)
            protocol host u.origin) = true := by
  intro gb bytes p h a u h1 h2 hp
  constructor
  · unfold handleHtmlContent
    dsimp only
    rw [if_pos h1, hp]
  · have hrep : hasSubL utfMarker.data
        (replaceFirstL gbMarker.data utfMarker.data (gb bytes).data) = true :=
      (hasSubL_eq_true_iff _ _).mpr
        (rep_infix_replaceFirstL gbMarker.data utfMarker.data (by decide) (gb bytes).data h2)
    have hcondA := absRules_marker_conditions p h
    have habs : hasSubL utfMarker.data
        (rwList (absRules (absIns p h))
          (replaceFirstL gbMarker.data utfMarker.data (gb bytes).data)) = true :=
      hasSubL_rwList (absRules (absIns p h)) utfMarker.data
        hcondA.1 hcondA.2.1 hcondA.2.2 _ hrep
    have hcondR := relRules_marker_conditions p h u.origin
    exact hasSubL_rwList (relRules (relIns p h u.origin)) utfMarker.data
      hcondR.1 hcondR.2.1 hcondR.2.2 _ habs

/-- C8 witness: a GB2312-marked ASCII body through the rewriter. -/
theorem C8_witness :
    handleHtmlContent (fun _ => ("<meta charset=gb2312>"))
        (asciiBytes ("<meta charset=gb2312>"))
        ("https:") ("proxy.example") ("https://example.com/")
      = Except.ok (replaceRelativePaths
          (absLinkRewrite
            (replaceFirstStr gbMarker utfMarker
              ((fun _ => ("<meta charset=gb2312>")) (asciiBytes ("<meta charset=gb2312>"))))
            ("https:") ("proxy.example"))
          ("https:") ("proxy.example")
          (URLRec.origin ⟨("https"), ("example.com"), ("/")⟩))
    ∧ hasSubStr utfMarker
        (replaceRelativePaths
          (absLinkRewrite
            (replaceFirstStr gbMarker utfMarker
              ((fun _ => ("<meta charset=gb2312>")) (asciiBytes ("<meta charset=gb2312>"))))
            ("https:") ("proxy.example"))
          ("https:") ("proxy.example")
          (URLRec.origin ⟨("https"), ("example.com"), ("/")⟩)) = true :=
  C8_theorem (fun _ => ("<meta charset=gb2312>")) (asciiBytes ("<meta charset=gb2312>"))
    ("https:") ("proxy.example") ("https://example.com/")
    ⟨("https"), ("example.com"), ("/")⟩ (by rfl) (by rfl) (by rfl)

theorem handler_fetch_error
    (gb : List Nat → String) (fetcher : Dispatch → Except String OutResponse)
    (request : InRequest) (decoded : String) (msg : String)
    (h1 : request.pathname ≠ ("/"))
    (h2 : pathRegexTest request.pathname = true)
    (h3 : percentDecodeStr (replaceFirstStr ("/") ("") request.pathname) = some decoded)
    (h4 : fetcher (buildDispatch request
        (ensureProtocol decoded request.protocol ++ request.search)) = Except.error msg) :
    handleRequest gb fetcher request = jsonResponse (errorEnvelope msg) 500 := by
  unfold handleRequest
  rw [if_neg h1, if_neg (by simp [h2]), h3]
  dsimp only
  rw [h4]

theorem finalize_headers (r : WResponse) :
    headerGet (finalizeResponse r).headers ("Cache-Control") = some ("no-store")
    ∧ headerGet (finalizeResponse r).headers ("Access-Control-Allow-Origin") = some ("*") := by
  unfold finalizeResponse setCorsHeaders setNoCacheHeaders
  constructor
  · rw [headerGet_headerSet_other _ _ _ _ (by decide),
      headerGet_headerSet_other _ _ _ _ (by decide),
      headerGet_headerSet_other _ _ _ _ (by decide),
      headerGet_headerSet_same]
  · rw [headerGet_headerSet_other _ _ _ _ (by decide),
      headerGet_headerSet_other _ _ _ _ (by decide),
      headerGet_headerSet_same]

/-- C9: every failure inside the pipeline (a rejected fetch, a redirect
    whose `Location` does not parse) lands in the single catch, producing
    a 500 response whose content type is JSON and whose body is the
    `{"error": <message>}` envelope; the handler is a total function, so
    no exception escapes. -/
theorem C9_theorem :
    (∀ (gb : List Nat → String) (fetcher : Dispatch → Except String OutResponse)
      (request : InRequest) (decoded msg : String),
      request.pathname ≠ ("/") →
      pathRegexTest request.pathname = true →
      percentDecodeStr (replaceFirstStr ("/") ("") request.pathname) = some decoded →
      fetcher (buildDispatch request
          (ensureProtocol decoded request.protocol ++ request.search)) = Except.error msg →
      handleRequest gb fetcher request = jsonResponse (errorEnvelope msg) 500)
    ∧ (∀ (gb : List Nat → String) (fetcher : Dispatch → Except String OutResponse)
      (request : InRequest) (decoded : String) (response : OutResponse),
      request.pathname ≠ ("/") →
      pathRegexTest request.pathname = true →
      percentDecodeStr (replaceFirstStr ("/") ("") request.pathname) = some decoded →
      fetcher (buildDispatch request
          (ensureProtocol decoded request.protocol ++ request.search)) = Except.ok response →
      statusIsRedirect response.status = true →
      parseURL ((headerGet response.headers ("location")).getD ("")) = none →
      handleRequest gb fetcher request = jsonResponse (errorEnvelope invalidUrlMsg) 500)
    ∧ (∀ msg : String,
      (jsonResponse (errorEnvelope msg) 500).status = 500
      ∧ headerGet (jsonResponse (errorEnvelope msg) 500).headers ("Content-Type") = some ctJson
      ∧ (jsonResponse (errorEnvelope msg) 500).body
          = RespBody.text ("\x7b\"error\":" ++ jsonQuote msg ++ "\x7d")) := by
  refine ⟨handler_fetch_error, ?_, ?_⟩
  · intro gb fetcher request decoded response h1 h2 h3 h4 h5 h6
    have hred : handleRedirect response = Except.error invalidUrlMsg := by
      unfold handleRedirect
      dsimp only
      rw [h6]
    unfold handleRequest
    rw [if_neg h1, if_neg (by simp [h2]), h3]
    dsimp only
    rw [h4]
    dsimp only
    rw [if_pos h5, hred]
  · intro msg
    exact ⟨rfl, rfl, rfl⟩

/-- C9 witness: a rejected fetch and an unparseable redirect `Location`,
    both at concrete requests. -/
theorem C9_witness :
    handleRequest (fun _ => (""))
        (fun _ => Except.error ("connect failed"))
        { method := ("GET"), protocol := ("https:"), host := ("proxy.example"),
          pathname := ("/https://a.b"), search := (""), headers := [], body := none }
      = jsonResponse (errorEnvelope ("connect failed")) 500
    ∧ handleRequest (fun _ => (""))
        (fun _ => Except.ok
          { status := 302, statusText := ("Found"), headers := [], body := [] })
        { method := ("GET"), protocol := ("https:"), host := ("proxy.example"),
          pathname := ("/https://a.b"), search := (""), headers := [], body := none }
      = jsonResponse (errorEnvelope invalidUrlMsg) 500 :=
  ⟨C9_theorem.1 (fun _ => ("")) (fun _ => Except.error ("connect failed"))
      { method := ("GET"), protocol := ("https:"), host := ("proxy.example"),
        pathname := ("/https://a.b"), search := (""), headers := [], body := none }
      ("https://a.b") ("connect failed") (by decide) (by decide) (by rfl) (by rfl),
    C9_theorem.2.1 (fun _ => (""))
      (fun _ => Except.ok
        { status := 302, statusText := ("Found"), headers := [], body := [] })
      { method := ("GET"), protocol := ("https:"), host := ("proxy.example"),
        pathname := ("/https://a.b"), search := (""), headers := [], body := none }
      ("https://a.b")
      { status := 302, statusText := ("Found"), headers := [], body := [] }
      (by decide) (by decide) (by rfl) (by rfl) (by rfl) (by rfl)⟩

/-- C2: the claim fails on the search-redirect outcome: its response
    carries only `Location`, with no cache or CORS headers. -/
theorem C2_counterexample :
    (handleRequest (fun _ => ("")) (fun _ => Except.error ("x"))
        { method := ("GET"), protocol := ("https:"), host := ("proxy.example"),
          pathname := ("/hello"), search := (""), headers := [], body := none }).status = 302
    ∧ headerGet (handleRequest (fun _ => ("")) (fun _ => Except.error ("x"))
        { method := ("GET"), protocol := ("https:"), host := ("proxy.example"),
          pathname := ("/hello"), search := (""), headers := [], body := none }).headers
        ("Cache-Control") = none
    ∧ headerGet (handleRequest (fun _ => ("")) (fun _ => Except.error ("x"))
        { method := ("GET"), protocol := ("https:"), host := ("proxy.example"),
          pathname := ("/hello"), search := (""), headers := [], body := none }).headers
        ("Access-Control-Allow-Origin") = none := by
  refine ⟨rfl, rfl, rfl⟩

/-- C2 amended: only the proxied pass-through and HTML-rewrite responses
    go through the finaliser and carry `Cache-Control: no-store` and
    `Access-Control-Allow-Origin: *`; the landing page, the search
    redirect, the rewritten redirect and the 500 error responses do not
    carry them. -/
theorem C2_theorem :
    (∀ r : WResponse,
      headerGet (finalizeResponse r).headers ("Cache-Control") = some ("no-store")
      ∧ headerGet (finalizeResponse r).headers ("Access-Control-Allow-Origin") = some ("*"))
    ∧ (∀ (gb : List Nat → String) (fetcher : Dispatch → Except String OutResponse)
        (request : InRequest) (decoded : String) (response : OutResponse),
        request.pathname ≠ ("/") →
        pathRegexTest request.pathname = true →
        percentDecodeStr (replaceFirstStr ("/") ("") request.pathname) = some decoded →
        fetcher (buildDispatch request
            (ensureProtocol decoded request.protocol ++ request.search))
          = Except.ok response →
        statusIsRedirect response.status = false →
        contentTypeIsHtml response = false →
        headerGet (handleRequest gb fetcher request).headers ("Cache-Control")
            = some ("no-store")
        ∧ headerGet (handleRequest gb fetcher request).headers ("Access-Control-Allow-Origin")
            = some ("*"))
    ∧ (∀ (gb : List Nat → String) (fetcher : Dispatch → Except String OutResponse)
        (request : InRequest) (decoded : String) (response : OutResponse)
        (newBody : String),
        request.pathname ≠ ("/") →
        pathRegexTest request.pathname = true →
        percentDecodeStr (replaceFirstStr ("/") ("") request.pathname) = some decoded →
        fetcher (buildDispatch request
            (ensureProtocol decoded request.protocol ++ request.search))
          = Except.ok response →
        statusIsRedirect response.status = false →
        contentTypeIsHtml response = true →
        handleHtmlContent gb response.body request.protocol request.host
            (ensureProtocol decoded request.protocol ++ request.search)
          = Except.ok newBody →
        headerGet (handleRequest gb fetcher request).headers ("Cache-Control")
            = some ("no-store")
        ∧ headerGet (handleRequest gb fetcher request).headers ("Access-Control-Allow-Origin")
            = some ("*"))
    ∧ (∀ (gb : List Nat → String) (fetcher : Dispatch → Except String OutResponse)
        (request : InRequest),
        request.pathname ≠ ("/") →
        pathRegexTest request.pathname = false →
        headerGet (handleRequest gb fetcher request).headers ("Cache-Control") = none
        ∧ headerGet (handleRequest gb fetcher request).headers
            ("Access-Control-Allow-Origin") = none)
    ∧ (∀ (gb : List Nat → String) (fetcher : Dispatch → Except String OutResponse)
        (request : InRequest),
        request.pathname = ("/") →
        headerGet (handleRequest gb fetcher request).headers ("Cache-Control") = none
        ∧ headerGet (handleRequest gb fetcher request).headers
            ("Access-Control-Allow-Origin") = none)
    ∧ (∀ (response : OutResponse) (r : WResponse),
        handleRedirect response = Except.ok r →
        headerGet r.headers ("Cache-Control") = none
        ∧ headerGet r.headers ("Access-Control-Allow-Origin") = none)
    ∧ (∀ msg : String,
        headerGet (jsonResponse (errorEnvelope msg) 500).headers ("Cache-Control") = none
        ∧ headerGet (jsonResponse (errorEnvelope msg) 500).headers
            ("Access-Control-Allow-Origin") = none) := by
  refine ⟨finalize_headers, ?_, ?_, ?_, ?_, ?_, ?_⟩
  · intro gb fetcher request decoded response h1 h2 h3 h4 h5 h6
    have hout : handleRequest gb fetcher request
        = finalizeResponse
            { status := response.status, statusText := response.statusText,
              headers := response.headers, body := RespBody.stream response.body } := by
      unfold handleRequest
      rw [if_neg h1, if_neg (by simp [h2]), h3]
      dsimp only
      rw [h4]
      dsimp only
      rw [if_neg (by simp [h5]), if_neg (by simp [h6])]
    rw [hout]
    exact finalize_headers _
  · intro gb fetcher request decoded response newBody h1 h2 h3 h4 h5 h6 h7
    have hout : handleRequest gb fetcher request
        = finalizeResponse
            { status := response.status, statusText := response.statusText,
              headers := response.headers, body := RespBody.text newBody } := by
      unfold handleRequest
      rw [if_neg h1, if_neg (by simp [h2]), h3]
      dsimp only
      rw [h4]
      dsimp only
      rw [if_neg (by simp [h5]), if_pos h6, h7]
    rw [hout]
    exact finalize_headers _
  · intro gb fetcher request h1 h2
    unfold handleRequest
    rw [if_neg h1, if_pos h2]
    exact ⟨rfl, rfl⟩
  · intro gb fetcher request h1
    unfold handleRequest
    rw [if_pos h1]
    exact ⟨rfl, rfl⟩
  · intro response r h
    unfold handleRedirect at h
    dsimp only at h
    cases hp : parseURL ((headerGet response.headers ("location")).getD ("")) with
    | none => rw [hp] at h; exact absurd h (by simp)
    | some loc =>
      rw [hp] at h
      dsimp only at h
      injection h with h
      subst h
      exact ⟨rfl, rfl⟩
  · intro msg
    exact ⟨rfl, rfl⟩

/-- A fetcher returning a fixed plain-text 200 response. -/
def plainFetcher : Dispatch → Except String OutResponse := fun _ =>
  Except.ok
    { status := 200, statusText := ("OK"),
      headers := [(("Content-Type"), ("text/plain"))], body := [] }

/-- A fetcher returning a fixed HTML 200 response. -/
def htmlFetcher : Dispatch → Except String OutResponse := fun _ =>
  Except.ok
    { status := 200, statusText := ("OK"),
      headers := [(("Content-Type"), ("text/html"))], body := asciiBytes ("<p>") }

/-- C2 witness: the amended statement instantiated on concrete requests
    for each pipeline outcome. -/
theorem C2_witness :
    (headerGet (handleRequest (fun _ => ("")) plainFetcher
        { method := ("GET"), protocol := ("https:"), host := ("proxy.example"),
          pathname := ("/https://a.b"), search := (""), headers := [], body := none }).headers
        ("Cache-Control") = some ("no-store")
      ∧ headerGet (handleRequest (fun _ => ("")) plainFetcher
        { method := ("GET"), protocol := ("https:"), host := ("proxy.example"),
          pathname := ("/https://a.b"), search := (""), headers := [], body := none }).headers
        ("Access-Control-Allow-Origin") = some ("*"))
    ∧ (headerGet (handleRequest (fun _ => ("")) htmlFetcher
        { method := ("GET"), protocol := ("https:"), host := ("proxy.example"),
          pathname := ("/https://a.b"), search := (""), headers := [], body := none }).headers
        ("Cache-Control") = some ("no-store")
      ∧ headerGet (handleRequest (fun _ => ("")) htmlFetcher
        { method := ("GET"), protocol := ("https:"), host := ("proxy.example"),
          pathname := ("/https://a.b"), search := (""), headers := [], body := none }).headers
        ("Access-Control-Allow-Origin") = some ("*"))
    ∧ (headerGet (handleRequest (fun _ => ("")) plainFetcher
        { method := ("GET"), protocol := ("https:"), host := ("proxy.example"),
          pathname := ("/hello"), search := (""), headers := [], body := none }).headers
        ("Cache-Control") = none
      ∧ headerGet (handleRequest (fun _ => ("")) plainFetcher
        { method := ("GET"), protocol := ("https:"), host := ("proxy.example"),
          pathname := ("/hello"), search := (""), headers := [], body := none }).headers
        ("Access-Control-Allow-Origin") = none)
    ∧ (headerGet (handleRequest (fun _ => ("")) plainFetcher
        { method := ("GET"), protocol := ("https:"), host := ("proxy.example"),
          pathname := ("/"), search := (""), headers := [], body := none }).headers
        ("Cache-Control") = none
      ∧ headerGet (handleRequest (fun _ => ("")) plainFetcher
        { method := ("GET"), protocol := ("https:"), host := ("proxy.example"),
          pathname := ("/"), search := (""), headers := [], body := none }).headers
        ("Access-Control-Allow-Origin") = none)
    ∧ (headerGet
        (WResponse.mk 302 ("Found")
          [(("Location"), ("/https%3A%2F%2Fa.b%2F"))] (RespBody.stream [])).headers
        ("Cache-Control") = none
      ∧ headerGet
        (WResponse.mk 302 ("Found")
          [(("Location"), ("/https%3A%2F%2Fa.b%2F"))] (RespBody.stream [])).headers
        ("Access-Control-Allow-Origin") = none) :=
  ⟨C2_theorem.2.1 (fun _ => ("")) plainFetcher
      { method := ("GET"), protocol := ("https:"), host := ("proxy.example"),
        pathname := ("/https://a.b"), search := (""), headers := [], body := none }
      ("https://a.b")
      { status := 200, statusText := ("OK"),
        headers := [(("Content-Type"), ("text/plain"))], body := [] }
      (by decide) (by decide) (by rfl) (by rfl) (by rfl) (by rfl),
    C2_theorem.2.2.1 (fun _ => ("")) htmlFetcher
      { method := ("GET"), protocol := ("https:"), host := ("proxy.example"),
        pathname := ("/https://a.b"), search := (""), headers := [], body := none }
      ("https://a.b")
      { status := 200, statusText := ("OK"),
        headers := [(("Content-Type"), ("text/html"))], body := asciiBytes ("<p>") }
      ("<p>")
      (by decide) (by decide) (by rfl) (by rfl) (by rfl) (by rfl) (by rfl),
    C2_theorem.2.2.2.1 (fun _ => ("")) plainFetcher
      { method := ("GET"), protocol := ("https:"), host := ("proxy.example"),
        pathname := ("/hello"), search := (""), headers := [], body := none }
      (by decide) (by decide),
    C2_theorem.2.2.2.2.1 (fun _ => ("")) plainFetcher
      { method := ("GET"), protocol := ("https:"), host := ("proxy.example"),
        pathname := ("/"), search := (""), headers := [], body := none }
      (by rfl),
    C2_theorem.2.2.2.2.2.1
      { status := 302, statusText := ("Found"),
        headers := [(("Location"), ("https://a.b/"))], body := [] }
      (WResponse.mk 302 ("Found")
        [(("Location"), ("/https%3A%2F%2Fa.b%2F"))] (RespBody.stream []))
      (by rfl)⟩
